import Mathlib

/-!
Verification development for the `web_scraping` repository.

The repository has two source files:
  * `src/scrapy/schools/schools/spiders/scrapy_vanilla.py` — the scrapy
    spider (`CharterSchoolSpider`): CSV ingestion, domain resolution via
    `tldextract`, page-text normalization (`get_text`), document handling
    (`parse_items` / `parse_file`).
  * `src/scripts/WebScraper.py` — the selenium-based scraper (`School`,
    `Link`, `readCSV`).

Pure string manipulation is embedded directly on `List Char` / `String`.
External collaborators (`tldextract`, `requests`, `textract`, the HTML
parser of BeautifulSoup, the filesystem) are modelled as explicit inputs
or as output fields describing the side effects the code performs.
Recursions that consume more than one character per step are written with
an explicit fuel argument equal to the input length (the fuel is never
exhausted, each step consumes at least one character), so every
definition evaluates by kernel reduction.
-/

set_option maxRecDepth 65536

namespace WebScraping

/-- Python-level exceptions that the modelled code can raise. -/
inductive PyErr : Type
  | indexError
  | valueError
  | textractError
  | linkException (switch : Nat)
deriving DecidableEq

/-- `Except.isOk` as a plain definition, so that statements about the
outcome of modelled Python calls are executable. -/
def exceptOk {ε α : Type} : Except ε α → Bool
  | .ok _ => true
  | .error _ => false

/-- Bool-valued substring containment, Python's `pat in s`. -/
def containsSubstr (pat : List Char) : List Char → Bool
  | [] => pat.isEmpty
  | c :: rest => pat.isPrefixOf (c :: rest) || containsSubstr pat rest

/-- Drop everything up to and including the first occurrence of `pat`.
Used to strip the `scheme://` part of a URL. -/
def dropThroughSubstr (pat : List Char) : List Char → List Char
  | [] => []
  | c :: rest =>
    if pat.isPrefixOf (c :: rest) then (c :: rest).drop pat.length
    else dropThroughSubstr pat rest

/-- Split a character list on a separator character (Python `str.split(sep)`,
`str.split(".")` in particular). Always returns at least one chunk. -/
def splitOnChar (sep : Char) : List Char → List (List Char)
  | [] => [[]]
  | c :: rest =>
    if c == sep then [] :: splitOnChar sep rest
    else
      match splitOnChar sep rest with
      | [] => [[c]]
      | chunk :: chunks => (c :: chunk) :: chunks

/-- Python `str.startswith`. -/
def pyStartsWith (pre s : String) : Bool := pre.data.isPrefixOf s.data

/-- Python `str.endswith`. -/
def pyEndsWith (suf s : String) : Bool := suf.data.isSuffixOf s.data

/-- Python `str.lower` (URLs here are ASCII, where `Char.toLower` agrees). -/
def pyLower (s : String) : String := String.mk (s.data.map Char.toLower)

/-- Python `str.upper` (URLs here are ASCII, where `Char.toUpper` agrees). -/
def pyUpper (s : String) : String := String.mk (s.data.map Char.toUpper)

/-- Modelled from the spec: the registrable-domain ("eTLD+1") resolution
performed by the external `tldextract` library (spec §4.1 DomainResolver:
"returns `<domain>.<publicSuffix>` using a maintained public-suffix list").
The public-suffix list is restricted to the single-label suffixes that occur
in the inputs considered here. -/
def publicSuffixes : List (List Char) :=
  ["org".data, "com".data, "net".data, "edu".data, "us".data]

/-- Host extraction of `tldextract`: strip the `scheme://` part if present,
keep everything before the first `/`, lowercase. -/
def hostOf (url : List Char) : List Char :=
  let rest := if containsSubstr "://".data url then dropThroughSubstr "://".data url else url
  (rest.takeWhile (fun c => !(c == '/'))).map Char.toLower

/-- Modelled from the spec: `tldextract.extract` on a host, returning the
`(domain, suffix)` pair. An unrecognised last label yields an empty suffix
and becomes the domain itself, as `tldextract` does. -/
def tldDomainSuffix (host : List Char) : List Char × List Char :=
  let labels := splitOnChar '.' host
  let lastLabel := labels.getLastD []
  if publicSuffixes.contains lastLabel then
    (if 2 ≤ labels.length then labels.getD (labels.length - 2) [] else [], lastLabel)
  else (lastLabel, [])

/-- `CharterSchoolSpider.get_domain` (scrapy_vanilla.py lines 211-223):
`extracted = tldextract.extract(url); return f'.../(domain).(suffix)'`.
Note that it is a total function: it returns a (possibly degenerate)
string for every input and raises nothing. -/
def get_domain (url : String) : String :=
  let ds := tldDomainSuffix (hostOf url.data)
  String.mk (ds.1 ++ '.' :: ds.2)

/-- The module-level constant `TEXTRACT_EXTENSIONS` (scrapy_vanilla.py
line 80): `[".pdf", ".doc", ".docx", ""]`. -/
def TEXTRACT_EXTENSIONS : List String := [".pdf", ".doc", ".docx", ""]

/-- The extension selection of `parse_file` (line 283):
`list(filter(lambda x: response_href.url.lower().endswith(x), TEXTRACT_EXTENSIONS))[0]`.
`none` models the `IndexError` that `[0]` would raise on an empty filter
result. -/
def extOf (respURL : String) : Option String :=
  (TEXTRACT_EXTENSIONS.filter (fun e => pyEndsWith e (pyLower respURL))).head?

/-- The control-character class of `CONTROL_CHAR_RE` (lines 78-79):
code points 0-8, 11-31 and 127-159. -/
def isControlChar (c : Char) : Bool :=
  decide (c.toNat ≤ 8) || (decide (11 ≤ c.toNat) && decide (c.toNat ≤ 31))
    || (decide (127 ≤ c.toNat) && decide (c.toNat ≤ 159))

/-- `urlparse(href).path`: the path component of a URL — what follows the
host when a scheme is present, otherwise the input itself — with any query
or fragment stripped. -/
def pathOf (url : List Char) : List Char :=
  let rest := if containsSubstr "://".data url
    then (dropThroughSubstr "://".data url).dropWhile (fun c => !(c == '/'))
    else url
  rest.takeWhile (fun c => !(c == '?') && !(c == '#'))

/-- `os.path.basename`: the part of a path after the last `/`. -/
def basenameOf (path : List Char) : List Char := (splitOnChar '/' path).getLastD []

/-- One step of Python `str.replace(old, new)` for a non-empty pattern
`p :: ps`, written with fuel (the initial fuel is the input length and is
never exhausted, since a match consumes at least one character). -/
def replaceF (p : Char) (ps : List Char) (rep : List Char) : Nat → List Char → List Char
  | 0, l => l
  | _ + 1, [] => []
  | n + 1, c :: rest =>
    if c == p && ps.isPrefixOf rest then rep ++ replaceF p ps rep n (rest.drop ps.length)
    else c :: replaceF p ps rep n rest

/-- Python `str.replace(pat, rep)`, replacing every non-overlapping
occurrence left to right. An empty pattern inserts `rep` before every
character and at the end, as CPython does. -/
def pyReplace (pat rep l : List Char) : List Char :=
  match pat with
  | [] => rep ++ (l.map (fun c => c :: rep)).flatten
  | p :: ps => replaceF p ps rep l.length l

deriving instance DecidableEq for Except

/-- The observable outcome of one `parse_file` call (lines 262-315):
the returned text (or the propagated exception), whether the
`NamedTemporaryFile` was created and whether it was closed (closing is what
deletes it), the directory ensured by the `os.mkdir` branch, and the side
artifact `(path, content)` written on the success path. -/
structure ParseFileOut : Type where
  result : Except PyErr String
  tempCreated : Bool
  tempClosed : Bool
  dirEnsured : Option String
  artifact : Option (String × String)
deriving DecidableEq

/-- `CharterSchoolSpider.parse_file` (lines 262-315).  The network fetch is
an external collaborator, so the call is parametrised by the requested URL
`href`, the post-redirect URL `respURL` (`response_href.url`) and the
outcome `textractOut` of the `textract.process` backend (`.ok` carries the
already UTF-8-decoded text).  Statements are modelled in program order:
the temp file is created after the extension lookup; `textract.process` is
called next, and an error there propagates before `tempfile.close()`, the
artifact write, or the return ever run. -/
def parse_file (href respURL parent_url : String) (textractOut : Except Unit String) :
    ParseFileOut :=
  match extOf respURL with
  | none =>
    { result := .error .indexError, tempCreated := false, tempClosed := false,
      dirEnsured := none, artifact := none }
  | some extension =>
    match textractOut with
    | .error _ =>
      { result := .error .textractError, tempCreated := true, tempClosed := false,
        dirEnsured := none, artifact := none }
    | .ok raw =>
      let extracted_data := String.mk (raw.data.filter (fun c => !(isControlChar c)))
      let base_url := get_domain parent_url
      let txt_file_name := "files" ++ "/" ++ base_url ++ "/"
        ++ String.mk (pyReplace extension.data ".txt".data (basenameOf (pathOf href.data)))
      let content := "Base URL: " ++ base_url ++ "\n" ++ "Parent URL: " ++ parent_url
        ++ "\n" ++ "File URL: " ++ pyUpper respURL ++ "\n" ++ extracted_data ++ "\n\n"
      { result := .ok extracted_data, tempCreated := true, tempClosed := true,
        dirEnsured := some ("files" ++ "/" ++ base_url),
        artifact := some (txt_file_name, content) }

/-- The CSS selector of `parse_items` (line 156): an `a` element is picked
iff its `href` attribute ends in `.pdf`, `.doc` or `.docx`. -/
def isDocHref (href : String) : Bool :=
  pyEndsWith ".pdf" href || pyEndsWith ".doc" href || pyEndsWith ".docx" href

/-- The href completion of `parse_items` (lines 162-163):
`if "http" not in href: href = "http://" + domain + href`. -/
def doc_href_to_url (href domain : String) : String :=
  if containsSubstr "http".data href.data = true then href
  else "http://" ++ domain ++ href

/-- The document loop of `parse_items` (lines 159-168), accumulating
`item['file_urls']` and `item['file_text']` in page order.  Each document is
given as `(rawHref, postRedirectURL, textractOutcome)`.  The loop body has
no exception handling, so an error from `parse_file` propagates and the
`yield item` at line 170 is never reached. -/
def parse_items_go (domain pageURL : String) :
    List (String × String × Except Unit String) → List String → List String →
    Except PyErr (List String × List String)
  | [], us, ts => .ok (us.reverse, ts.reverse)
  | (href, respURL, tex) :: rest, us, ts =>
    let u := doc_href_to_url href domain
    match (parse_file u respURL pageURL tex).result with
    | .error e => .error e
    | .ok t => parse_items_go domain pageURL rest (u :: us) (t :: ts)

/-- The file-handling part of `parse_items` on one page: returns the
`(file_urls, file_text)` lists of the emitted record, or the exception that
aborted the callback. -/
def parse_items_docs (domain pageURL : String)
    (docs : List (String × String × Except Unit String)) :
    Except PyErr (List String × List String) :=
  parse_items_go domain pageURL docs [] []

/-- The `School` object of WebScraper.py (lines 57-77); the link list and
diagnostic counters, which start empty/zero, are omitted. -/
structure School : Type where
  id : String
  name : String
  address : String
  mainURL : String
  matcher : String
  filePath : String
deriving DecidableEq

/-- `School.__init__` (lines 62-71): raises `ValueError` when
`mainURL == str(0)`; `matcher = mainURL.split(".")[1]` raises an
(uncaught) `IndexError` when the URL contains no period. -/
def School.init (id name address mainURL : String) : Except PyErr School :=
  if mainURL = "0" then .error .valueError
  else
    match (splitOnChar '.' mainURL.data).get? 1 with
    | none => .error .indexError
    | some m =>
      .ok { id := id, name := name, address := address, mainURL := mainURL,
            matcher := String.mk m, filePath := "results/" ++ name }

/-- The row loop of `readCSV` (WebScraper.py lines 31-42) on the rows after
the header.  The `try` only catches `ValueError`; the `IndexError` raised by
`row[4]` on a short row (and by the matcher computation) is uncaught and
aborts the whole call. -/
def readCSV_rows : List (List String) → Except PyErr (List School)
  | [] => .ok []
  | row :: rest =>
    if row.length < 5 then .error .indexError
    else
      match School.init (row.getD 0 "") (row.getD 1 "") (row.getD 2 "") (row.getD 4 "") with
      | .ok s => Except.map (fun l => s :: l) (readCSV_rows rest)
      | .error .valueError => readCSV_rows rest
      | .error e => .error e

/-- `readCSV` (lines 31-42): the first row (`reader.line_num == 1`) is
skipped unconditionally; the remaining rows are processed by
`readCSV_rows`. The argument is the list of already-parsed CSV rows
(the `csv.reader` itself is an external collaborator). -/
def readCSV : List (List String) → Except PyErr (List School)
  | [] => .ok []
  | _header :: rest => readCSV_rows rest

/-- A row that `readCSV` can process without an uncaught exception: it has
the five accessed fields, and its URL field either is `"0"` (the input
encoding of a missing URL, raising the caught `ValueError`) or contains a
period (so the matcher computation does not raise `IndexError`). -/
def rowOK (r : List String) : Bool :=
  decide (5 ≤ r.length) &&
    (decide (r.getD 4 "" = "0") || ((splitOnChar '.' (r.getD 4 "").data).get? 1).isSome)

/-- The `School` built by `readCSV` from a well-formed row. -/
def schoolOfRow (r : List String) : School :=
  { id := r.getD 0 "", name := r.getD 1 "", address := r.getD 2 "",
    mainURL := r.getD 4 "",
    matcher := String.mk (((splitOnChar '.' (r.getD 4 "").data).get? 1).getD []),
    filePath := "results/" ++ r.getD 1 "" }

/-- A link as constructed by `Link.__init__` (WebScraper.py lines 148-169).
`index : Option Nat` models the Python attribute that is first assigned
`None`, then `0`, and possibly the constructor argument. -/
structure LinkM : Type where
  type : String
  hrefAttribute : String
  fallbackURL : String
  index : Option Nat
  matcher : String
  name : String
deriving DecidableEq

/-- `Link.gatherName(delimiter="-")` for an html link (lines 223-236):
slice the href after the fallback URL's length, split on `/`; if more than
one part, join every part with a trailing `-`; otherwise keep the single
part. -/
def gatherNameHtml (href calling : String) : String :=
  let unfilteredName := splitOnChar '/' (href.data.drop calling.length)
  if unfilteredName.length ≠ 1 then
    String.mk ((unfilteredName.map (fun part => part ++ ['-'])).flatten)
  else String.mk (unfilteredName.headD [])

/-- The `elif`/`else` tail of `Link.__init__` (lines 163-168): an href
starting with `"javascript"` is accepted with `index` overwritten by the
constructor argument; anything else raises `LinkException(0)`. -/
def Link.initElse (href calling matcher : String) (index : Nat) : Except PyErr LinkM :=
  if pyStartsWith "javascript" href = true then
    .ok { type := "JavaScript", hrefAttribute := href, fallbackURL := calling,
          index := some index, matcher := matcher, name := "" }
  else .error (.linkException 0)

/-- `Link.__init__` (lines 152-169).  The accept condition for an html link
is `hrefAttribute.startswith("http") and hrefAttribute.split(".")[1] ==
matcher and len(hrefAttribute) > len(callingURL)`; note the comparison is
on the second period-separated token, not on a registrable domain, and that
`split(".")[1]` raises `IndexError` when a `http...` href has no period.
The caller (`School.gatherLinks`, line 85) always passes an integer
`index`. -/
def Link.init (href calling matcher : String) (index : Nat) : Except PyErr LinkM :=
  if pyStartsWith "http" href = true then
    match (splitOnChar '.' href.data).get? 1 with
    | none => .error .indexError
    | some tok =>
      if tok = matcher.data ∧ calling.length < href.length then
        .ok { type := "html", hrefAttribute := href, fallbackURL := calling,
              index := some 0, matcher := matcher, name := gatherNameHtml href calling }
      else Link.initElse href calling matcher index
  else Link.initElse href calling matcher index

/-- The guard of `Link.click` at lines 200-202: inside the
`type == "JavaScript"` branch, `LinkException(2)` is raised iff
`self.index is None`. -/
def click_index_guard (l : LinkM) : Bool :=
  l.type == "JavaScript" && l.index == none

/-- The character class of the `regex.sub(r"[ \t\h\|]+", " ", ...)` at
line 251.  After the preceding ASCII filter the horizontal-whitespace class
`\h` contains exactly the space and the tab, so on the pipeline's input the
class is `{' ', '\t', '|'}`. -/
def isSp (c : Char) : Bool := c == ' ' || c == '\t' || c == '|'

/-- The character class of the `regex.sub(r"[\n\r\f\v]+", "\n", ...)` at
line 253. -/
def isNL (c : Char) : Bool := c == '\n' || c == '\r' || c == '\x0c' || c == '\x0b'

/-- The (ASCII) whitespace class stripped by Python `str.strip()` at
line 259. -/
def isPyWS (c : Char) : Bool :=
  c == ' ' || c == '\t' || c == '\n' || c == '\r' || c == '\x0c' || c == '\x0b'

/-- `regex.sub(r"[C]+", rep, ·)` for a character class `p`: every maximal
run of class characters is replaced by the single character `rep`.  The
flag records whether the previous character was part of a run already
replaced. -/
def collapseAux (p : Char → Bool) (rep : Char) : Bool → List Char → List Char
  | _, [] => []
  | b, c :: cs =>
    if p c then
      if b then collapseAux p rep true cs
      else rep :: collapseAux p rep true cs
    else c :: collapseAux p rep false cs

/-- Top-level entry of `collapseAux` (no run in progress). -/
def collapseRuns (p : Char → Bool) (rep : Char) (l : List Char) : List Char :=
  collapseAux p rep false l

/-- The `encode('ascii', 'ignore')` round-trip at line 248: drop every
non-ASCII code point. -/
def isAsciiCh (c : Char) : Bool := decide (c.toNat < 128)

/-- `visible_text.encode('ascii','ignore').decode('ascii')` (line 248). -/
def asciiFilter (l : List Char) : List Char := l.filter isAsciiCh

/-- One `visible_text.replace("<tag>", "")` / `replace("</tag>", "")` pair
of the inline-tag loop (lines 244-246). -/
def stripTag (l : List Char) (it : String) : List Char :=
  pyReplace ('<' :: ('/' :: (it.data ++ ['>']))) [] (pyReplace ('<' :: (it.data ++ ['>'])) [] l)

/-- The module-level `inline_tags` list (lines 83-85). -/
def inline_tags : List String :=
  ["b", "big", "i", "small", "tt", "abbr", "acronym", "cite", "dfn",
   "em", "kbd", "strong", "samp", "var", "bdo", "map", "object", "q",
   "span", "sub", "sup"]

/-- The inline-tag removal loop (lines 244-246). -/
def stripInlineTags (l : List Char) : List Char := inline_tags.foldl stripTag l

/-- Scan for the closing brace matching an already-read `\x7b`, at nesting
depth `d`; returns the remainder after the matching `\x7d`.  This is where
the recursive regex `r"{(?:[^{}]*|(?R))*}"` (line 256) succeeds: its greedy
body consumes non-brace runs and balanced groups, so a match starting at a
`\x7b` extends exactly to the brace that closes it, and fails iff the
braces never rebalance. -/
def findClose : List Char → Nat → Option (List Char)
  | [], _ => none
  | c :: rest, d =>
    if c == '\x7d' then (if d == 0 then some rest else findClose rest (d - 1))
    else if c == '\x7b' then findClose rest (d + 1)
    else findClose rest d

/-- `regex.sub(r"{(?:[^{}]*|(?R))*}", " ", ·)` (line 256): each leftmost
balanced-brace group is replaced by a single space; an unmatched opening
brace is kept.  Fuel = input length; a successful match consumes at least
the opening brace, so the fuel is never exhausted. -/
def removeJsonF : Nat → List Char → List Char
  | 0, l => l
  | _ + 1, [] => []
  | n + 1, c :: rest =>
    if c == '\x7b' then
      match findClose rest 0 with
      | some rest2 => ' ' :: removeJsonF n rest2
      | none => c :: removeJsonF n rest
    else c :: removeJsonF n rest

/-- The JSON-blob removal of line 256. -/
def removeJson (l : List Char) : List Char := removeJsonF l.length l

/-- `List.dropWhile` from the right; used for the trailing half of Python
`str.strip()`. -/
def dropWhileRight (p : Char → Bool) (l : List Char) : List Char :=
  (l.reverse.dropWhile p).reverse

/-- Python `str.strip()` (line 259). -/
def pyStrip (l : List Char) : List Char :=
  dropWhileRight isPyWS (l.dropWhile isPyWS)

/-- The pure filtering pipeline of `CharterSchoolSpider.get_text`
(lines 243-259), applied to the visible text `visible_text` that
BeautifulSoup's `soup.get_text(strip=True)` extracted at line 241 (the
HTML parse itself is an external collaborator; on plain text with no
markup it returns the text unchanged): inline-tag literal removal, ASCII
filter, horizontal-whitespace/pipe collapse, linebreak collapse,
balanced-brace JSON removal, strip. -/
def get_text_chars (l : List Char) : List Char :=
  pyStrip (removeJson (collapseRuns isNL '\n'
    (collapseRuns isSp ' ' (asciiFilter (stripInlineTags l)))))

/-- `CharterSchoolSpider.get_text` (lines 226-259) at the string level. -/
def get_text (s : String) : String := String.mk (get_text_chars s.data)

/-- The head of `l` is not in class `p` (vacuously for `[]`). -/
def headNot (p : Char → Bool) : List Char → Bool
  | [] => true
  | c :: _ => !(p c)

/-- `l` is a fixed point of run-collapsing for class `p` with replacement
`rep`: every class character is `rep` itself and is not followed by
another class character. -/
def collapsed (p : Char → Bool) (rep : Char) : List Char → Bool
  | [] => true
  | c :: cs => (!(p c) || (c == rep && headNot p cs)) && collapsed p rep cs

theorem headNot_collapseAux (p : Char → Bool) (rep : Char) :
    ∀ l : List Char, headNot p (collapseAux p rep true l) = true := by
  intro l
  induction l with
  | nil => rfl
  | cons c cs ih =>
    cases hc : p c with
    | true => simpa [collapseAux, hc] using ih
    | false => simp [collapseAux, hc, headNot]

theorem collapsed_collapseAux (p : Char → Bool) (rep : Char) (hrep : p rep = true) :
    ∀ (l : List Char) (b : Bool), collapsed p rep (collapseAux p rep b l) = true := by
  intro l
  induction l with
  | nil => intro b; rfl
  | cons c cs ih =>
    intro b
    cases hc : p c with
    | true =>
      cases b with
      | true => simpa [collapseAux, hc] using ih true
      | false =>
        simp only [collapseAux, hc, if_true, ite_true, ite_false, Bool.false_eq_true]
        simp [collapsed, hrep, headNot_collapseAux p rep cs, ih true]
    | false =>
      simp [collapseAux, hc, collapsed, ih false]

theorem collapseAux_fix (p : Char → Bool) (rep : Char) :
    ∀ l : List Char, collapsed p rep l = true →
      collapseAux p rep false l = l ∧
        (headNot p l = true → collapseAux p rep true l = l) := by
  intro l
  induction l with
  | nil => exact fun _ => ⟨rfl, fun _ => rfl⟩
  | cons c cs ih =>
    intro h
    simp only [collapsed, Bool.and_eq_true] at h
    obtain ⟨hhead, hcs⟩ := h
    cases hc : p c with
    | true =>
      have hrest : c = rep ∧ headNot p cs = true := by
        simpa [hc] using hhead
      obtain ⟨hcr, hhd⟩ := hrest
      constructor
      · simp only [collapseAux, hc, ite_true]
        rw [(ih hcs).2 hhd, hcr]
        simp
      · intro habs
        simp [headNot, hc] at habs
    | false =>
      constructor
      · simp only [collapseAux, hc, Bool.false_eq_true, ite_false]
        rw [(ih hcs).1]
      · intro _
        simp only [collapseAux, hc, Bool.false_eq_true, ite_false]
        rw [(ih hcs).1]

theorem headNot_collapseAux_cross (p q : Char → Bool) (rq : Char) (hr : p rq = false) :
    ∀ l : List Char, headNot p l = true → headNot p (collapseAux q rq false l) = true := by
  intro l h
  cases l with
  | nil => rfl
  | cons c cs =>
    cases hqc : q c with
    | true => simp [collapseAux, hqc, headNot, hr]
    | false =>
      simp only [collapseAux, hqc, Bool.false_eq_true, ite_false]
      simpa [headNot] using h

theorem collapsed_collapseAux_cross (p q : Char → Bool) (rp rq : Char)
    (hr : p rq = false) :
    ∀ (l : List Char) (b : Bool), collapsed p rp l = true →
      collapsed p rp (collapseAux q rq b l) = true := by
  intro l
  induction l with
  | nil => intro b _; rfl
  | cons c cs ih =>
    intro b h
    simp only [collapsed, Bool.and_eq_true] at h
    obtain ⟨hhead, hcs⟩ := h
    cases hqc : q c with
    | true =>
      cases b with
      | true => simpa [collapseAux, hqc] using ih true hcs
      | false =>
        simp only [collapseAux, hqc, ite_true]
        simp [collapsed, hr, ih true hcs]
    | false =>
      simp only [collapseAux, hqc, Bool.false_eq_true, ite_false]
      simp only [collapsed, Bool.and_eq_true]
      refine ⟨?_, ih false hcs⟩
      rcases Bool.or_eq_true _ _ |>.mp hhead with hnp | hrest
      · simp [hnp]
      · simp only [Bool.and_eq_true] at hrest
        obtain ⟨hcr, hhd⟩ := hrest
        have := headNot_collapseAux_cross p q rq hr cs hhd
        simp [hcr, this]

theorem headNot_append (p : Char → Bool) (l1 l2 : List Char)
    (h : headNot p (l1 ++ l2) = true) : headNot p l1 = true := by
  cases l1 with
  | nil => rfl
  | cons c cs => simpa [headNot] using h

theorem collapsed_append (p : Char → Bool) (rep : Char) :
    ∀ l1 l2 : List Char, collapsed p rep (l1 ++ l2) = true →
      collapsed p rep l1 = true ∧ collapsed p rep l2 = true := by
  intro l1
  induction l1 with
  | nil => exact fun l2 h => ⟨rfl, h⟩
  | cons c cs ih =>
    intro l2 h
    simp only [List.cons_append, collapsed, Bool.and_eq_true] at h
    obtain ⟨hhead, hrest⟩ := h
    obtain ⟨h1, h2⟩ := ih l2 hrest
    refine ⟨?_, h2⟩
    simp only [collapsed, Bool.and_eq_true]
    refine ⟨?_, h1⟩
    rcases Bool.or_eq_true _ _ |>.mp hhead with hnp | hcr
    · simp [hnp]
    · simp only [Bool.and_eq_true] at hcr
      have := headNot_append p cs l2 hcr.2
      simp [hcr.1, this]

theorem mem_collapseAux (p : Char → Bool) (rep : Char) :
    ∀ (l : List Char) (b : Bool) (c : Char),
      c ∈ collapseAux p rep b l → c ∈ l ∨ c = rep := by
  intro l
  induction l with
  | nil => intro b c h; simp [collapseAux] at h
  | cons a as ih =>
    intro b c h
    cases ha : p a with
    | true =>
      cases b with
      | true =>
        simp only [collapseAux, ha, ite_true] at h
        rcases ih true c h with h1 | h2
        · exact Or.inl (List.mem_cons_of_mem a h1)
        · exact Or.inr h2
      | false =>
        simp only [collapseAux, ha, ite_true, Bool.false_eq_true, ite_false] at h
        rcases List.mem_cons.mp h with h0 | h1
        · exact Or.inr h0
        · rcases ih true c h1 with h2 | h3
          · exact Or.inl (List.mem_cons_of_mem a h2)
          · exact Or.inr h3
    | false =>
      simp only [collapseAux, ha, Bool.false_eq_true, ite_false] at h
      rcases List.mem_cons.mp h with h0 | h1
      · exact Or.inl (h0 ▸ List.mem_cons_self a as)
      · rcases ih false c h1 with h2 | h3
        · exact Or.inl (List.mem_cons_of_mem a h2)
        · exact Or.inr h3

theorem mem_dropWhile (p : Char → Bool) :
    ∀ l : List Char, ∀ c : Char, c ∈ l.dropWhile p → c ∈ l := by
  intro l
  induction l with
  | nil => intro c h; simpa using h
  | cons a as ih =>
    intro c h
    cases ha : p a with
    | true =>
      rw [List.dropWhile_cons_of_pos ha] at h
      exact List.mem_cons_of_mem a (ih c h)
    | false =>
      rw [List.dropWhile_cons_of_neg (by simp [ha])] at h
      exact h

theorem dropWhile_head_false (p : Char → Bool) :
    ∀ l : List Char, ∀ c : Char, ∀ r : List Char,
      l.dropWhile p = c :: r → p c = false := by
  intro l
  induction l with
  | nil => intro c r h; simp at h
  | cons a as ih =>
    intro c r h
    cases ha : p a with
    | true =>
      rw [List.dropWhile_cons_of_pos ha] at h
      exact ih c r h
    | false =>
      rw [List.dropWhile_cons_of_neg (by simp [ha])] at h
      cases h
      exact ha

theorem dropWhile_dropWhile (p : Char → Bool) (l : List Char) :
    (l.dropWhile p).dropWhile p = l.dropWhile p := by
  cases h : l.dropWhile p with
  | nil => rfl
  | cons c r =>
    have := dropWhile_head_false p l c r h
    rw [List.dropWhile_cons_of_neg (by simp [this])]

theorem dropWhileRight_append (p : Char → Bool) (l : List Char) :
    l = dropWhileRight p l ++ (l.reverse.takeWhile p).reverse := by
  unfold dropWhileRight
  have h : l.reverse.takeWhile p ++ l.reverse.dropWhile p = l.reverse :=
    List.takeWhile_append_dropWhile p l.reverse
  have h2 := congrArg List.reverse h
  simp only [List.reverse_append, List.reverse_reverse] at h2
  exact h2.symm

theorem mem_dropWhileRight (p : Char → Bool) (l : List Char) (c : Char)
    (h : c ∈ dropWhileRight p l) : c ∈ l := by
  unfold dropWhileRight at h
  rw [List.mem_reverse] at h
  have := mem_dropWhile p l.reverse c h
  rwa [List.mem_reverse] at this

theorem mem_pyStrip (l : List Char) (c : Char) (h : c ∈ pyStrip l) : c ∈ l := by
  unfold pyStrip at h
  exact mem_dropWhile isPyWS l c (mem_dropWhileRight isPyWS _ c h)

theorem collapsed_pyStrip (p : Char → Bool) (rep : Char) (l : List Char)
    (h : collapsed p rep l = true) : collapsed p rep (pyStrip l) = true := by
  unfold pyStrip
  have h1 : collapsed p rep (l.dropWhile isPyWS) = true := by
    have hsplit : l.takeWhile isPyWS ++ l.dropWhile isPyWS = l :=
      List.takeWhile_append_dropWhile isPyWS l
    exact (collapsed_append p rep _ _ (hsplit ▸ h)).2
  have hsplit2 := dropWhileRight_append isPyWS (l.dropWhile isPyWS)
  exact (collapsed_append p rep _ _ (hsplit2 ▸ h1)).1

theorem pyStrip_idem (l : List Char) : pyStrip (pyStrip l) = pyStrip l := by
  have hdw : (pyStrip l).dropWhile isPyWS = pyStrip l := by
    cases ht : pyStrip l with
    | nil => rfl
    | cons c r =>
      have hEx : ∃ Y, List.dropWhile isPyWS l = c :: (r ++ Y) := by
        refine ⟨((l.dropWhile isPyWS).reverse.takeWhile isPyWS).reverse, ?_⟩
        conv_lhs => rw [dropWhileRight_append isPyWS (l.dropWhile isPyWS)]
        rw [show dropWhileRight isPyWS (l.dropWhile isPyWS) = pyStrip l from rfl, ht]
        exact List.cons_append _ _ _
      obtain ⟨Y, hY⟩ := hEx
      have hc : isPyWS c = false := dropWhile_head_false isPyWS l c (r ++ Y) hY
      rw [List.dropWhile_cons_of_neg (by simp [hc])]
  have hrev : (pyStrip l).reverse = (l.dropWhile isPyWS).reverse.dropWhile isPyWS := by
    unfold pyStrip dropWhileRight
    rw [List.reverse_reverse]
  have hdwr : dropWhileRight isPyWS (pyStrip l) = pyStrip l := by
    unfold dropWhileRight
    rw [hrev, dropWhile_dropWhile, ← hrev, List.reverse_reverse]
  show dropWhileRight isPyWS ((pyStrip l).dropWhile isPyWS) = pyStrip l
  rw [hdw, hdwr]

theorem replaceF_id (p : Char) (ps rep : List Char) :
    ∀ (n : Nat) (l : List Char), p ∉ l → replaceF p ps rep n l = l := by
  intro n
  induction n with
  | zero => intro l _; rfl
  | succ n ih =>
    intro l h
    cases l with
    | nil => rfl
    | cons c rest =>
      have hcp : (c == p) = false := by
        simp only [List.mem_cons, not_or] at h
        simp [beq_iff_eq]
        exact fun he => h.1 he.symm
      simp only [replaceF, hcp, Bool.false_and, Bool.false_eq_true, ite_false]
      have : p ∉ rest := by
        simp only [List.mem_cons, not_or] at h
        exact h.2
      rw [ih rest this]

theorem pyReplace_id (p : Char) (ps rep l : List Char) (h : p ∉ l) :
    pyReplace (p :: ps) rep l = l := replaceF_id p ps rep l.length l h

theorem stripTag_id (l : List Char) (it : String) (h : '<' ∉ l) :
    stripTag l it = l := by
  unfold stripTag
  rw [pyReplace_id '<' _ _ _ h, pyReplace_id '<' _ _ _ h]

theorem foldl_stripTag_id :
    ∀ (tags : List String) (l : List Char), '<' ∉ l → List.foldl stripTag l tags = l := by
  intro tags
  induction tags with
  | nil => intro l _; rfl
  | cons t ts ih =>
    intro l h
    simp only [List.foldl_cons]
    rw [stripTag_id l t h, ih l h]

theorem stripInlineTags_id (l : List Char) (h : '<' ∉ l) : stripInlineTags l = l :=
  foldl_stripTag_id inline_tags l h

theorem removeJsonF_id :
    ∀ (n : Nat) (l : List Char), '\x7b' ∉ l → removeJsonF n l = l := by
  intro n
  induction n with
  | zero => intro l _; rfl
  | succ n ih =>
    intro l h
    cases l with
    | nil => rfl
    | cons c rest =>
      have hcb : (c == '\x7b') = false := by
        simp only [List.mem_cons, not_or] at h
        simp [beq_iff_eq]
        exact fun he => h.1 he.symm
      simp only [removeJsonF, hcb, Bool.false_eq_true, ite_false]
      have : '\x7b' ∉ rest := by
        simp only [List.mem_cons, not_or] at h
        exact h.2
      rw [ih rest this]

theorem removeJson_id (l : List Char) (h : '\x7b' ∉ l) : removeJson l = l :=
  removeJsonF_id l.length l h

theorem asciiFilter_id (l : List Char) (h : ∀ c ∈ l, isAsciiCh c = true) :
    asciiFilter l = l := List.filter_eq_self.mpr h

theorem mem_asciiFilter (l : List Char) (c : Char) (h : c ∈ asciiFilter l) :
    c ∈ l ∧ isAsciiCh c = true := List.mem_filter.mp h

theorem get_text_chars_idem (l : List Char) (hlb : '\x7b' ∉ l) (hlt : '<' ∉ l) :
    get_text_chars (get_text_chars l) = get_text_chars l := by
  have hsi : stripInlineTags l = l := stripInlineTags_id l hlt
  -- the characters of each stage come from the previous stage or are the
  -- replacement characters ' ' and '\n'
  have hlb_x0 : '\x7b' ∉ asciiFilter l := fun hm => hlb ((mem_asciiFilter l _ hm).1)
  have hlb_y1 : '\x7b' ∉ collapseAux isSp ' ' false (asciiFilter l) := by
    intro hm
    rcases mem_collapseAux isSp ' ' _ false _ hm with hm2 | he
    · exact hlb_x0 hm2
    · exact absurd he (by decide)
  have hlb_y2 :
      '\x7b' ∉ collapseAux isNL '\n' false (collapseAux isSp ' ' false (asciiFilter l)) := by
    intro hm
    rcases mem_collapseAux isNL '\n' _ false _ hm with hm2 | he
    · exact hlb_y1 hm2
    · exact absurd he (by decide)
  have e2 : get_text_chars l =
      pyStrip (collapseAux isNL '\n' false (collapseAux isSp ' ' false (asciiFilter l))) := by
    unfold get_text_chars collapseRuns
    rw [hsi, removeJson_id _ hlb_y2]
  -- membership chain for the final text
  have hmem_t : ∀ c : Char,
      c ∈ pyStrip (collapseAux isNL '\n' false (collapseAux isSp ' ' false (asciiFilter l))) →
        c ∈ l ∨ c = ' ' ∨ c = '\n' := by
    intro c hc
    have hc2 := mem_pyStrip _ c hc
    rcases mem_collapseAux isNL '\n' _ false c hc2 with hm1 | he1
    · rcases mem_collapseAux isSp ' ' _ false c hm1 with hm2 | he2
      · exact Or.inl ((mem_asciiFilter l c hm2).1)
      · exact Or.inr (Or.inl he2)
    · exact Or.inr (Or.inr he1)
  have hascii_t : ∀ c ∈ pyStrip (collapseAux isNL '\n' false
      (collapseAux isSp ' ' false (asciiFilter l))), isAsciiCh c = true := by
    intro c hc
    have hc2 := mem_pyStrip _ c hc
    rcases mem_collapseAux isNL '\n' _ false c hc2 with hm1 | he1
    · rcases mem_collapseAux isSp ' ' _ false c hm1 with hm2 | he2
      · exact (mem_asciiFilter l c hm2).2
      · rw [he2]; decide
    · rw [he1]; decide
  have hlt_t : '<' ∉ pyStrip (collapseAux isNL '\n' false
      (collapseAux isSp ' ' false (asciiFilter l))) := by
    intro hm
    rcases hmem_t '<' hm with hin | heq | heq
    · exact hlt hin
    · exact absurd heq (by decide)
    · exact absurd heq (by decide)
  have hlb_t : '\x7b' ∉ pyStrip (collapseAux isNL '\n' false
      (collapseAux isSp ' ' false (asciiFilter l))) := by
    intro hm
    rcases hmem_t '\x7b' hm with hin | heq | heq
    · exact hlb hin
    · exact absurd heq (by decide)
    · exact absurd heq (by decide)
  -- the final text is a fixed point of both collapses
  have hcsp_t : collapsed isSp ' ' (pyStrip (collapseAux isNL '\n' false
      (collapseAux isSp ' ' false (asciiFilter l)))) = true := by
    apply collapsed_pyStrip
    apply collapsed_collapseAux_cross isSp isNL ' ' '\n' (by decide)
    exact collapsed_collapseAux isSp ' ' (by decide) (asciiFilter l) false
  have hcnl_t : collapsed isNL '\n' (pyStrip (collapseAux isNL '\n' false
      (collapseAux isSp ' ' false (asciiFilter l)))) = true := by
    apply collapsed_pyStrip
    exact collapsed_collapseAux isNL '\n' (by decide) _ false
  -- each pipeline stage is the identity on the final text
  rw [e2]
  unfold get_text_chars collapseRuns
  rw [stripInlineTags_id _ hlt_t, asciiFilter_id _ hascii_t,
    (collapseAux_fix isSp ' ' _ hcsp_t).1, (collapseAux_fix isNL '\n' _ hcnl_t).1,
    removeJson_id _ hlb_t, pyStrip_idem]

theorem extOf_isSome (r : String) : ∃ e, extOf r = some e := by
  unfold extOf TEXTRACT_EXTENSIONS
  have hempty : pyEndsWith "" (pyLower r) = true := by
    simp [pyEndsWith, List.isSuffixOf, List.isPrefixOf]
  cases h1 : pyEndsWith ".pdf" (pyLower r) <;>
    cases h2 : pyEndsWith ".doc" (pyLower r) <;>
      cases h3 : pyEndsWith ".docx" (pyLower r) <;>
        simp [List.filter, h1, h2, h3, hempty]

theorem parse_file_result_ok (href respURL parent_url : String) (raw : String) :
    (parse_file href respURL parent_url (.ok raw)).result =
      .ok (String.mk (raw.data.filter (fun c => !(isControlChar c)))) := by
  obtain ⟨e, he⟩ := extOf_isSome respURL
  unfold parse_file
  rw [he]

theorem parse_file_result_error (href respURL parent_url : String) (u : Unit) :
    (parse_file href respURL parent_url (.error u)).result = .error .textractError := by
  obtain ⟨e, he⟩ := extOf_isSome respURL
  unfold parse_file
  rw [he]

theorem parse_items_go_ok_iff (domain page : String) :
    ∀ (docs : List (String × String × Except Unit String)) (us ts : List String),
      exceptOk (parse_items_go domain page docs us ts) =
        docs.all (fun x => exceptOk x.2.2) := by
  intro docs
  induction docs with
  | nil => intro us ts; rfl
  | cons d rest ih =>
    intro us ts
    obtain ⟨href, respURL, tex⟩ := d
    cases tex with
    | ok raw =>
      simp only [parse_items_go, parse_file_result_ok]
      rw [ih]
      simp [exceptOk]
    | error u =>
      simp only [parse_items_go, parse_file_result_error]
      simp [exceptOk]

theorem startsWith_http_not_js (h : String) (hh : pyStartsWith "http" h = true) :
    pyStartsWith "javascript" h = false := by
  unfold pyStartsWith at hh ⊢
  rw [show ("http" : String).data = ['h', 't', 't', 'p'] from rfl] at hh
  rw [show ("javascript" : String).data =
    ['j', 'a', 'v', 'a', 's', 'c', 'r', 'i', 'p', 't'] from rfl]
  cases hd : h.data with
  | nil => rw [hd] at hh; simp at hh
  | cons c cs =>
    rw [hd] at hh
    rw [List.isPrefixOf_cons₂] at hh
    have hc : c = 'h' := (beq_iff_eq.mp (Bool.and_eq_true _ _ |>.mp hh).1).symm
    subst hc
    rw [List.isPrefixOf_cons₂]
    simp

theorem readCSV_rows_skips :
    ∀ rows : List (List String), (∀ r ∈ rows, rowOK r = true) →
      readCSV_rows rows =
        .ok (rows.filterMap fun r =>
          if r.getD 4 "" = "0" then none else some (schoolOfRow r)) := by
  intro rows
  induction rows with
  | nil => intro _; rfl
  | cons r rest ih =>
    intro h
    have hr := h r (List.mem_cons_self r rest)
    have hrest : ∀ x ∈ rest, rowOK x = true := fun x hx => h x (List.mem_cons_of_mem r hx)
    simp only [rowOK, Bool.and_eq_true, Bool.or_eq_true, decide_eq_true_eq] at hr
    obtain ⟨hlen, hurl⟩ := hr
    have hlen' : ¬ (r.length < 5) := by omega
    have hbranch : readCSV_rows (r :: rest) =
        (if r.length < 5 then (.error .indexError : Except PyErr (List School))
         else
           match School.init (r.getD 0 "") (r.getD 1 "") (r.getD 2 "") (r.getD 4 "") with
           | .ok s => Except.map (fun l => s :: l) (readCSV_rows rest)
           | .error .valueError => readCSV_rows rest
           | .error e => .error e) := rfl
    rw [hbranch, if_neg hlen']
    by_cases h0 : r.getD 4 "" = "0"
    · have hval : School.init (r.getD 0 "") (r.getD 1 "") (r.getD 2 "") (r.getD 4 "") =
          .error .valueError := by
        unfold School.init
        rw [if_pos h0]
      rw [hval]
      show readCSV_rows rest = _
      rw [ih hrest]
      congr 1
      rw [List.filterMap_cons, if_pos h0]
    · obtain ⟨tok, htok⟩ : ∃ tok, (splitOnChar '.' (r.getD 4 "").data).get? 1 = some tok := by
        rcases hurl with h0' | hsome
        · exact absurd h0' h0
        · exact Option.isSome_iff_exists.mp hsome
      have hsch : School.init (r.getD 0 "") (r.getD 1 "") (r.getD 2 "") (r.getD 4 "") =
          .ok (schoolOfRow r) := by
        unfold School.init schoolOfRow
        rw [if_neg h0, htok]
        rfl
      rw [hsch, ih hrest]
      show Except.ok (schoolOfRow r :: _) = _
      congr 1
      rw [List.filterMap_cons, if_neg h0]

/-- C1: the claim as stated is false on the code: `get_text` is not
idempotent.  The balanced-brace removal (line 256) runs after the
whitespace collapse (line 251) and substitutes a space for the brace
group, so `"a \x7bx\x7d b"` normalizes to `"a   b"` (three spaces), which a
second pass collapses to `"a b"`. -/
theorem get_text_not_idempotent :
    get_text (get_text "a {x} b") ≠ get_text "a {x} b" := by decide

/-- C1 (amended): the `get_text` filtering pipeline is idempotent on every
input containing no `\x7b` and no `<`: on such inputs no brace group is
substituted and no inline-tag literal is stripped, and each remaining
stage (ASCII filter, the two run collapses, strip) is the identity on the
pipeline's output. -/
theorem get_text_idem_no_braces (s : String)
    (h1 : '\x7b' ∉ s.data) (h2 : '<' ∉ s.data) :
    get_text (get_text s) = get_text s := by
  have e1 : ∀ t : String, get_text t = String.mk (get_text_chars t.data) :=
    fun t => Eq.refl (get_text t)
  have e2 : ∀ l : List Char, (String.mk l).data = l := fun _ => rfl
  rw [e1 (get_text s), e1 s, e2 (get_text_chars s.data)]
  exact congrArg String.mk (get_text_chars_idem s.data h1 h2)

/-- C1 witness: a concrete brace-free, tag-free body on which `get_text` is
idempotent. -/
theorem get_text_idem_no_braces_witness :
    ('\x7b' ∉ ("  OUR \tSCHOOL\n\nMISSION " : String).data) ∧
      ('<' ∉ ("  OUR \tSCHOOL\n\nMISSION " : String).data) ∧
      get_text (get_text "  OUR \tSCHOOL\n\nMISSION ") =
        get_text "  OUR \tSCHOOL\n\nMISSION " :=
  ⟨by decide, by decide,
    get_text_idem_no_braces "  OUR \tSCHOOL\n\nMISSION " (by decide) (by decide)⟩

/-- C2: the claim is false on the code: when the extraction backend raises,
`parse_file` has no `try`/`finally`, so the exception at line 290
propagates before `tempfile.close()` at line 293 ever runs — the
temporary file is created but not closed on that exit path. -/
theorem parse_file_leaks_temp_on_failure :
    ((parse_file "https://x.org/a.pdf" "https://x.org/a.pdf" "https://x.org/"
        (.error ())).tempCreated = true) ∧
      ((parse_file "https://x.org/a.pdf" "https://x.org/a.pdf" "https://x.org/"
        (.error ())).tempClosed = false) := by decide

/-- C2 (amended): `parse_file` closes (hence deletes) its temporary file
exactly when the extraction backend succeeds; on a backend error the
exception propagates and the file is never closed by `parse_file`. -/
theorem parse_file_temp_closed_iff_backend_ok (href respURL parent_url : String)
    (t : Except Unit String) :
    (parse_file href respURL parent_url t).tempClosed = exceptOk t := by
  obtain ⟨e, he⟩ := extOf_isSome respURL
  unfold parse_file
  rw [he]
  cases t <;> rfl

/-- C3: the claim is false on the code: `parse_items` wraps no `try` around
`parse_file` (line 168), so a backend failure on the middle document of a
page aborts the callback — no record is emitted at all, rather than a
record with `""` for that document and the other texts intact. -/
theorem parse_items_aborts_on_failure :
    parse_items_docs "x.org" "http://x.org/"
        [("a.pdf", "http://x.org/a.pdf", .ok "ONE"),
         ("b.pdf", "http://x.org/b.pdf", .error ()),
         ("c.pdf", "http://x.org/c.pdf", .ok "THREE")] = .error .textractError ∧
      exceptOk (parse_items_docs "x.org" "http://x.org/"
        [("a.pdf", "http://x.org/a.pdf", .ok "ONE"),
         ("b.pdf", "http://x.org/b.pdf", .error ()),
         ("c.pdf", "http://x.org/c.pdf", .ok "THREE")]) = false := by
  refine ⟨by decide, by decide⟩

/-- C3 (amended): the page record survives the document loop iff the
extraction backend succeeded on every fetched document of the page; any
single failure aborts the whole callback and no record is emitted. -/
theorem parse_items_emits_iff_all_ok (domain page : String)
    (docs : List (String × String × Except Unit String)) :
    exceptOk (parse_items_docs domain page docs) =
      docs.all (fun x => exceptOk x.2.2) :=
  parse_items_go_ok_iff domain page docs [] []

/-- C4: the claim is false on the code: a page-relative document href is
indeed selected as a document, but lines 162-163 build the fetched URL by
plain concatenation `"http://" + domain + href` — for `brochure.pdf` on
`http://www.example.org/` the extractor receives
`http://example.orgbrochure.pdf`, not the correct resolution
`http://www.example.org/brochure.pdf`. -/
theorem doc_href_not_resolved :
    isDocHref "brochure.pdf" = true ∧
      doc_href_to_url "brochure.pdf" (get_domain "http://www.example.org/") =
        "http://example.orgbrochure.pdf" ∧
      ("http://example.orgbrochure.pdf" : String) ≠ "http://www.example.org/brochure.pdf" := by
  decide

/-- C4 (amended): for every href not containing the substring `"http"`,
the URL handed to the document extractor is the verbatim concatenation of
`"http://"`, the page's registrable domain, and the href — no slash is
inserted and no resolution against the source page's URL happens. -/
theorem doc_href_concat (href domain : String)
    (h : containsSubstr "http".data href.data = false) :
    doc_href_to_url href domain = "http://" ++ domain ++ href := by
  unfold doc_href_to_url
  rw [h]
  simp

/-- C4 witness: the concrete page-relative href of the claim. -/
theorem doc_href_concat_witness :
    containsSubstr "http".data ("brochure.pdf" : String).data = false ∧
      doc_href_to_url "brochure.pdf" "example.org" =
        "http://" ++ "example.org" ++ "brochure.pdf" :=
  ⟨by decide, doc_href_concat "brochure.pdf" "example.org" (by decide)⟩

/-- C5: evaluated at the code's own docstring example (lines 269-277), the
artifact path and the `Base URL`/`Parent URL` header lines are as the claim
says, but the `File URL` line carries `response_href.url.upper()`
(line 309) — the uppercased URL, not the document's URL — and the body is
followed by a trailing blank line; the docstring shows the URL verbatim,
so the code contradicts its own documentation. -/
theorem parse_file_uppercases_file_url :
    (parse_file "https://www.imagescape.com/sampletext.pdf"
        "https://www.imagescape.com/sampletext.pdf"
        "https://www.imagescape.com/scrape_me.html"
        (.ok "This is a caterwauling test of a transcendental PDF.")).artifact =
      some ("files/imagescape.com/sampletext.txt",
        "Base URL: imagescape.com\nParent URL: https://www.imagescape.com/scrape_me.html\nFile URL: HTTPS://WWW.IMAGESCAPE.COM/SAMPLETEXT.PDF\nThis is a caterwauling test of a transcendental PDF.\n\n") := by
  decide

/-- C6: the claim is false on the code: `Link.__init__` does not compare
registrable domains.  The href `http://charlottesecondary.org/about` has
the same registrable domain as the seed
`http://www.charlottesecondary.org/` (whose matcher, `split(".")[1]`, is
`charlottesecondary`), yet the link is rejected with `LinkException(0)`
because its own second period-token is `org/about`. -/
theorem link_init_rejects_same_domain :
    get_domain "http://charlottesecondary.org/about" =
        get_domain "http://www.charlottesecondary.org/" ∧
      (splitOnChar '.' ("http://www.charlottesecondary.org/" : String).data).get? 1 =
        some ("charlottesecondary" : String).data ∧
      Link.init "http://charlottesecondary.org/about"
        "http://www.charlottesecondary.org/" "charlottesecondary" 0 =
          .error (.linkException 0) := by
  refine ⟨by decide, by decide, by decide⟩

/-- C6 (amended): `Link.__init__` accepts exactly the hrefs that either
start with `"http"`, have their second period-separated token equal to the
matcher, and are strictly longer than the calling URL (type `html`), or
start with `"javascript"` (type `JavaScript`, accepted regardless of any
domain); no depth field exists on a link. -/
theorem link_init_accepts_iff (h c m : String) (i : Nat) :
    exceptOk (Link.init h c m i) =
      ((pyStartsWith "http" h
          && decide ((splitOnChar '.' h.data).get? 1 = some m.data)
          && decide (c.length < h.length))
        || pyStartsWith "javascript" h) := by
  unfold Link.init Link.initElse
  cases hhttp : pyStartsWith "http" h with
  | false =>
    cases hjs : pyStartsWith "javascript" h with
    | true => simp [exceptOk, hjs]
    | false => simp [exceptOk, hjs]
  | true =>
    have hjs := startsWith_http_not_js h hhttp
    cases hsplit : (splitOnChar '.' h.data).get? 1 with
    | none => simp [exceptOk, hjs, hsplit]
    | some tok =>
      by_cases h1 : tok = m.data
      · by_cases h2 : c.length < h.length
        · have hcond : tok = m.data ∧ c.length < h.length := ⟨h1, h2⟩
          simp [exceptOk, hsplit, hcond, h1, h2]
        · have hcond : ¬(tok = m.data ∧ c.length < h.length) := fun hx => h2 hx.2
          simp [exceptOk, hsplit, hcond, hjs, h1, h2]
      · have hcond : ¬(tok = m.data ∧ c.length < h.length) := fun hx => h1 hx.1
        simp [exceptOk, hsplit, hcond, hjs, h1]

/-- C7: the claim is false on the code: the allowed-extension filter at
line 283 can never fail, because every URL ends with the empty string
`""`, the last element of `TEXTRACT_EXTENSIONS`.  A URL with the
disallowed extension `.exe` is assigned the empty extension and handed to
the backend; when the backend succeeds the text is returned and the
artifact written — nothing is skipped. -/
theorem parse_file_extracts_exe :
    extOf "http://x.org/a.exe" = some "" ∧
      (parse_file "http://x.org/a.exe" "http://x.org/a.exe" "http://x.org/"
        (.ok "SECRET")).result = .ok "SECRET" ∧
      (parse_file "http://x.org/a.exe" "http://x.org/a.exe" "http://x.org/"
        (.ok "SECRET")).artifact.isSome = true := by
  refine ⟨by decide, by decide, by decide⟩

/-- C7 (amended): for every post-redirect URL that ends in none of `.pdf`,
`.doc`, `.docx`, the extension selection yields the empty string rather
than failing: there is no `UnsupportedFormat` error path in `parse_file`. -/
theorem extOf_defaults_to_empty (r : String)
    (h1 : pyEndsWith ".pdf" (pyLower r) = false)
    (h2 : pyEndsWith ".doc" (pyLower r) = false)
    (h3 : pyEndsWith ".docx" (pyLower r) = false) :
    extOf r = some "" := by
  unfold extOf TEXTRACT_EXTENSIONS
  have hempty : pyEndsWith "" (pyLower r) = true := by
    simp [pyEndsWith, List.isSuffixOf, List.isPrefixOf]
  simp [List.filter, h1, h2, h3, hempty]

/-- C7 witness: a URL with a disallowed extension. -/
theorem extOf_defaults_to_empty_witness :
    pyEndsWith ".pdf" (pyLower "http://x.org/a.exe") = false ∧
      pyEndsWith ".doc" (pyLower "http://x.org/a.exe") = false ∧
      pyEndsWith ".docx" (pyLower "http://x.org/a.exe") = false ∧
      extOf "http://x.org/a.exe" = some "" :=
  ⟨by decide, by decide, by decide,
    extOf_defaults_to_empty "http://x.org/a.exe" (by decide) (by decide) (by decide)⟩

/-- C8: the claim is false on the code: `get_domain` never fails.  On an
input with no parseable host it returns the degenerate string `"."`
(empty domain, empty suffix), and on a suffix-less host it returns
`"<host>."`; no `MalformedURL` error exists and no link is dropped at
resolution. -/
theorem get_domain_total_on_hostless :
    get_domain "" = "." ∧ get_domain "nohost" = "nohost." := by
  refine ⟨by decide, by decide⟩

/-- C8 (amended): domain resolution is total; for every URL whose host
part is empty it returns `"."` rather than failing. -/
theorem get_domain_hostless (url : String) (h : hostOf url.data = []) :
    get_domain url = "." := by
  unfold get_domain
  rw [h]
  decide

/-- C8 witness: the empty URL has no host. -/
theorem get_domain_hostless_witness :
    hostOf ("" : String).data = [] ∧ get_domain "" = "." :=
  ⟨by decide, get_domain_hostless "" (by decide)⟩

/-- C9: the claim is false on the code: a row missing a required field
raises `IndexError` at `row[4]`, which the `except ValueError` at line 40
does not catch, so the entire ingestion aborts — the well-formed row after
the malformed one is never processed. -/
theorem readCSV_aborts_on_short_row :
    readCSV [["h"], ["1", "n", "a", "x", "u.org"], ["2", "b"],
        ["3", "n", "a", "x", "v.org"]] = .error .indexError := by
  decide

/-- C9 (amended): the only malformed rows that are skipped with the
remaining rows still processed are those whose URL field is `"0"` (the
input's encoding of a missing URL, raising the caught `ValueError`);
rows of at least five fields are processed in order, and a row with fewer
than five fields aborts the whole ingestion with an uncaught
`IndexError`. -/
theorem readCSV_skips_zero_url_rows (header : List String) (rows : List (List String))
    (h : ∀ r ∈ rows, rowOK r = true) :
    readCSV (header :: rows) =
      .ok (rows.filterMap fun r =>
        if r.getD 4 "" = "0" then none else some (schoolOfRow r)) :=
  readCSV_rows_skips rows h

/-- C9 witness: a row with URL `"0"` is skipped and the following
well-formed row still yields its `School`. -/
theorem readCSV_skips_zero_url_rows_witness :
    rowOK ["1", "a", "b", "c", "0"] = true ∧ rowOK ["2", "n", "d", "x", "www.k.org"] = true ∧
      readCSV [["h"], ["1", "a", "b", "c", "0"], ["2", "n", "d", "x", "www.k.org"]] =
        .ok ([["1", "a", "b", "c", "0"], ["2", "n", "d", "x", "www.k.org"]].filterMap
          fun r => if r.getD 4 "" = "0" then none else some (schoolOfRow r)) :=
  ⟨by decide, by decide,
    readCSV_skips_zero_url_rows ["h"]
      [["1", "a", "b", "c", "0"], ["2", "n", "d", "x", "www.k.org"]] (by decide)⟩

/-- C10: every successfully constructed `Link` has type `"html"` or
`"JavaScript"` and a non-`None` index (`some 0` for html, the caller's
integer for JavaScript), so the `LinkException(2)` guard inside
`Link.click` can never fire on a constructed link. -/
theorem link_init_index_always_set (h c m : String) (i : Nat) (l : LinkM)
    (hok : Link.init h c m i = .ok l) :
    (l.type = "html" ∨ l.type = "JavaScript") ∧ l.index ≠ none ∧
      click_index_guard l = false := by
  unfold Link.init Link.initElse at hok
  split at hok
  · split at hok
    · exact absurd hok (by simp)
    · split at hok
      · cases hok
        exact ⟨Or.inl rfl, by simp, by simp [click_index_guard]⟩
      · split at hok
        · cases hok
          exact ⟨Or.inr rfl, by simp, by simp [click_index_guard]⟩
        · exact absurd hok (by simp)
  · split at hok
    · cases hok
      exact ⟨Or.inr rfl, by simp, by simp [click_index_guard]⟩
    · exact absurd hok (by simp)

/-- C10 witness: a concrete JavaScript link constructed with the caller's
integer index. -/
theorem link_init_index_always_set_witness :
    (("JavaScript" : String) = "html" ∨ ("JavaScript" : String) = "JavaScript") ∧
      (some 1 : Option Nat) ≠ none ∧
      click_index_guard ⟨"JavaScript", "javascript:x", "http://a.b/", some 1, "a", ""⟩ = false :=
  link_init_index_always_set "javascript:x" "http://a.b/" "a" 1
    ⟨"JavaScript", "javascript:x", "http://a.b/", some 1, "a", ""⟩ (by decide)

end WebScraping



